import Mathlib

/-!
# Verification of the transaction-import pipeline

Shallow embedding of the CSV transaction-import core of the
Personal-Finance-Spending-Analyzer repository (modules `csvParser.js`,
`classifier.js`, `expenses.js`, `transactionImport.js`), together with
theorems settling the specification claims about it.

Modelling conventions:
* JavaScript strings are Lean `String`s; `toLowerCase()`, `trim()`,
  `includes()` and `split()` are given explicit character-list
  implementations (`jsToLower`, `jsTrim`, `strIncludes`, `splitOnChar`) that
  coincide with the JS built-ins on the ASCII data this pipeline handles.
* JavaScript numbers used for amounts are modelled as `ℚ` (the code only
  adds, subtracts and compares parsed decimals).
* JavaScript `Date` values constructed by `new Date(year, monthIndex, day)`
  are modelled as the number of civil days since 1970-01-01 (the constructor
  always yields local midnight, so day counts preserve `getTime()` ordering
  and equality).  Crucially, the constructor does NOT reject out-of-range
  components: it rolls them over (month 12 of year y is January of y+1,
  day 32 of January is February 1); `jsMakeDay` reproduces that rollover.
* Fallible operations return `Option`; asynchronous collaborator calls are
  passed in as explicit response data.
-/

namespace FinanceImport

/-! ## JavaScript string primitives -/

/-- `s.toLowerCase()` (ASCII). -/
def jsToLower (s : String) : String := String.mk (s.data.map Char.toLower)

/-- Whitespace trim on character lists. -/
def jsTrimChars (cs : List Char) : List Char :=
  ((cs.dropWhile Char.isWhitespace).reverse.dropWhile Char.isWhitespace).reverse

/-- `s.trim()`: strips leading and trailing whitespace. -/
def jsTrim (s : String) : String := String.mk (jsTrimChars s.data)

/-- JS `String.split(sep)` for a one-character separator: `""` splits to
`[""]`. -/
def splitOnChar (sep : Char) : List Char → List (List Char)
  | [] => [[]]
  | c :: t =>
    if c == sep then [] :: splitOnChar sep t
    else
      match splitOnChar sep t with
      | [] => [[c]]
      | seg :: rest => (c :: seg) :: rest

/-- Is `needle` a prefix of `hay` (character lists)? -/
def charsStartWith : List Char → List Char → Bool
  | [], _ => true
  | _ :: _, [] => false
  | a :: as, b :: bs => a == b && charsStartWith as bs

/-- Does `hay` contain `needle` as a contiguous substring? -/
def charsContain (needle : List Char) : List Char → Bool
  | [] => charsStartWith needle []
  | c :: t => charsStartWith needle (c :: t) || charsContain needle t

/-- `hay.includes(needle)` for strings. -/
def strIncludes (hay needle : String) : Bool := charsContain needle.data hay.data

/-! ## JavaScript number parsing (`parseFloat`) -/

/-- Numeric value of a decimal digit character. -/
def digitVal (c : Char) : Nat := c.toNat - '0'.toNat

/-- Split off the longest leading run of decimal digits. -/
def takeDigits : List Char → List Char × List Char
  | [] => ([], [])
  | c :: t =>
    if c.isDigit then
      let (ds, r) := takeDigits t
      (c :: ds, r)
    else ([], c :: t)

/-- Value of a digit string read in base 10. -/
def digitsToNat (ds : List Char) : Nat := ds.foldl (fun a c => a * 10 + digitVal c) 0

/-- Optionally signed digit run, as used by the exponent of a JS number
literal.  When no digits follow, JS `parseFloat` keeps only the longest
valid prefix of the literal, so the exponent contributes 0. -/
def readSignedDigits : List Char → Int
  | '-' :: u => -(digitsToNat (takeDigits u).1 : Int)
  | '+' :: u => (digitsToNat (takeDigits u).1 : Int)
  | u => (digitsToNat (takeDigits u).1 : Int)

/-- Exponent part of a JS number literal: `e`/`E`, optional sign, digits. -/
def readExponent : List Char → Int
  | 'e' :: t => readSignedDigits t
  | 'E' :: t => readSignedDigits t
  | _ => 0

/-- JS `parseFloat` on a character list: optional sign, decimal digits with an
optional fraction part, optional exponent; `none` when no digits are found
(JS `NaN`).  The special literal `Infinity` is not modelled: no amount string
in this pipeline produces it. -/
def parseFloatChars (cs0 : List Char) : Option ℚ :=
  let cs1 := cs0.dropWhile Char.isWhitespace
  let signAndRest : ℚ × List Char :=
    match cs1 with
    | '-' :: t => (-1, t)
    | '+' :: t => (1, t)
    | t => (1, t)
  let sign := signAndRest.1
  let (ip, rest1) := takeDigits signAndRest.2
  let fracAndRest : List Char × List Char :=
    match rest1 with
    | '.' :: t => takeDigits t
    | t => ([], t)
  let fp := fracAndRest.1
  if ip.isEmpty && fp.isEmpty then none
  else
    let mant : ℚ := (digitsToNat ip : ℚ) + (digitsToNat fp : ℚ) / ((10 : ℚ) ^ fp.length)
    some (sign * mant * (10 : ℚ) ^ readExponent fracAndRest.2)

/-! ## JavaScript `Date` construction (`new Date(year, monthIndex, day)`) -/

/-- Days since 1970-01-01 of the civil date `(y, m, d)` with `1 ≤ m ≤ 12`
(Gregorian, proleptic); standard era-based day-count arithmetic. -/
def daysFromCivil (y m d : Int) : Int :=
  let y' := if m ≤ 2 then y - 1 else y
  let era := Int.fdiv y' 400
  let yoe := y' - era * 400
  let mp := Int.emod (m + 9) 12
  let doy := Int.fdiv (153 * mp + 2) 5 + d - 1
  let doe := yoe * 365 + Int.fdiv yoe 4 - Int.fdiv yoe 100 + doy
  era * 146097 + doe - 719468

/-- Civil date `(y, m, d)` of a day count since 1970-01-01 (inverse of
`daysFromCivil`). -/
def civilFromDays (z0 : Int) : Int × Int × Int :=
  let z := z0 + 719468
  let era := Int.fdiv z 146097
  let doe := z - era * 146097
  let yoe := Int.fdiv (doe - Int.fdiv doe 1460 + Int.fdiv doe 36524 - Int.fdiv doe 146096) 365
  let y := yoe + era * 400
  let doy := doe - (365 * yoe + Int.fdiv yoe 4 - Int.fdiv yoe 100)
  let mp := Int.fdiv (5 * doy + 2) 153
  let d := doy - Int.fdiv (153 * mp + 2) 5 + 1
  let m := mp + (if mp < 10 then 3 else -9)
  (y + (if m ≤ 2 then 1 else 0), m, d)

/-- `new Date(year, monthIndex, day)` as a day count since the epoch.
ECMAScript semantics: a year argument in `0..99` means `1900 + year`;
the month index rolls into the year (`fdiv`/`emod` by 12) and the day is
free-ranging day arithmetic from day 1 of that month — out-of-range
months/days are normalised, never rejected. -/
def jsMakeDay (year monthIndex day : Int) : Int :=
  let y := if 0 ≤ year ∧ year ≤ 99 then 1900 + year else year
  let ym := y + Int.fdiv monthIndex 12
  let mn := Int.emod monthIndex 12
  daysFromCivil ym (mn + 1) 1 + (day - 1)

/-- ECMAScript time-value range check: `new Date(...).getTime()` is `NaN`
exactly when the time value exceeds ±8.64e15 ms, i.e. ±100,000,000 days.
This is the only way `isNaN(date.getTime())` can hold for all-digit
components. -/
def jsTimeValid (days : Int) : Bool := days.natAbs ≤ 100000000

/-! ## `csvParser.js` — file gate -/

/-- A browser `File` as far as `validateFile` consults it: `name` and `size`
(bytes). -/
structure JsFile where
  name : String
  size : Nat
deriving Repr, DecidableEq

/-- Keys of the `VALIDATION_ERRORS` message table in `csvParser.js`. -/
inductive FileError where
  | NO_FILE
  | INVALID_EXTENSION
  | FILE_TOO_LARGE
  | EMPTY_FILE
deriving Repr, DecidableEq

/-- The user-facing message bound to each `VALIDATION_ERRORS` key. -/
def validationMessage : FileError → String
  | .NO_FILE => "No file selected"
  | .INVALID_EXTENSION => "Please select a supported file (CSV, PDF, PNG, or JPG)"
  | .FILE_TOO_LARGE => "File size exceeds 5MB limit. Please select a smaller file."
  | .EMPTY_FILE => "The selected file is empty. Please select a valid file."

/-- `MAX_FILE_SIZE = 5 * 1024 * 1024`. -/
def MAX_FILE_SIZE : Nat := 5 * 1024 * 1024

/-- `SUPPORTED_EXTENSIONS`. -/
def SUPPORTED_EXTENSIONS : List String := ["csv", "pdf", "png", "jpg", "jpeg"]

/-- `fileName.toLowerCase().split('.').pop()` — the text after the last dot
(the whole lower-cased name when there is no dot). -/
def fileExtension (name : String) : String :=
  String.mk ((splitOnChar '.' (jsToLower name).data).getLastD [])

/-- Result record of `validateFile` (the `error` field carries the message
key; the JS object holds the corresponding message string). -/
structure FileValidation where
  valid : Bool
  error : Option FileError
  fileType : Option String
deriving Repr, DecidableEq

/-- `validateFile(file)` from `csvParser.js`. -/
def validateFile : Option JsFile → FileValidation
  | none => { valid := false, error := some .NO_FILE, fileType := none }
  | some f =>
    let ext := fileExtension f.name
    if ¬ SUPPORTED_EXTENSIONS.contains ext then
      { valid := false, error := some .INVALID_EXTENSION, fileType := none }
    else if MAX_FILE_SIZE < f.size then
      { valid := false, error := some .FILE_TOO_LARGE, fileType := none }
    else if f.size = 0 then
      { valid := false, error := some .EMPTY_FILE, fileType := none }
    else
      let ft := if ext = "pdf" then "pdf"
        else if ["png", "jpg", "jpeg"].contains ext then "image"
        else "csv"
      { valid := true, error := none, fileType := some ft }

/-! ## `csvParser.js` — delimited-text parsing -/

/-- First element of `content.split(/\r?\n/)`: characters up to the first
`'\n'`, with the `'\r'` immediately before that `'\n'` belonging to the
separator; a bare `'\r'` is not a separator for this split. -/
def firstLineRN : List Char → List Char
  | [] => []
  | '\r' :: '\n' :: _ => []
  | '\n' :: _ => []
  | c :: t => c :: firstLineRN t

/-- Occurrences of a character in a list. -/
def countChar (c : Char) (cs : List Char) : Nat := (cs.filter (· == c)).length

/-- `detectDelimiter(content)` from `csvParser.js`: counts `,` `;` tab in the
first line; semicolon wins if it beats comma and is ≥ tab; tab wins if it
strictly beats both; otherwise comma. -/
def detectDelimiter (content : String) : Char :=
  let fl := firstLineRN content.data
  let commaCount := countChar ',' fl
  let semicolonCount := countChar ';' fl
  let tabCount := countChar '\t' fl
  if semicolonCount > commaCount ∧ semicolonCount ≥ tabCount then ';'
  else if tabCount > commaCount ∧ tabCount > semicolonCount then '\t'
  else ','

/-- Character scanner of `parseLine`: `inQ` is the in-quotes flag, `cur` the
current field (reversed), `acc` the finished fields (reversed).  Inside
quotes, `""` is an escaped quote (consumes two characters) and a single `"`
closes the field; outside quotes, `"` opens quoting and the delimiter ends
the field. -/
def parseLineAux (delim : Char) : List Char → Bool → List Char → List (List Char) →
    List (List Char)
  | [], _, cur, acc => cur.reverse :: acc
  | '"' :: '"' :: rest, true, cur, acc => parseLineAux delim rest true ('"' :: cur) acc
  | '"' :: rest, true, cur, acc => parseLineAux delim rest false cur acc
  | ch :: rest, true, cur, acc => parseLineAux delim rest true (ch :: cur) acc
  | ch :: rest, false, cur, acc =>
    if ch == '"' then parseLineAux delim rest true cur acc
    else if ch == delim then parseLineAux delim rest false [] (cur.reverse :: acc)
    else parseLineAux delim rest false (ch :: cur) acc

/-- `parseLine(line, delimiter)` from `csvParser.js`; every pushed field is
trimmed (`currentField.trim()`). -/
def parseLine (line : String) (delim : Char) : List String :=
  ((parseLineAux delim line.data false [] []).reverse).map (fun f => jsTrim (String.mk f))

/-- One entry of the `errors` array of `parseCSV`. -/
structure RowError where
  row : Nat
  message : String
deriving Repr, DecidableEq

/-- Result record of `parseCSV`. -/
structure ParsedCSV where
  rows : List (List String)
  headers : List String
  errors : List RowError
  delimiter : Char
deriving Repr, DecidableEq

/-- One-pass form of `content.replace(/\r\n/g, '\n').replace(/\r/g, '\n')`:
each `\r\n` collapses to `\n` and every remaining `\r` becomes `\n`. -/
def normCR : List Char → List Char
  | [] => []
  | '\r' :: '\n' :: t => '\n' :: normCR t
  | '\r' :: t => '\n' :: normCR t
  | c :: t => c :: normCR t

/-- Line-ending normalisation and split of `parseCSV`. -/
def splitLinesNorm (s : String) : List String :=
  (splitOnChar '\n' (normCR s.data)).map String.mk

/-- The `while`-loop of `parseCSV` popping trailing lines whose `trim()` is
empty. -/
def dropTrailingBlank (lines : List String) : List String :=
  (lines.reverse.dropWhile (fun l => jsTrim l == "")).reverse

/-- The column-count diagnostic message of `parseCSV`. -/
def rowCountMsg (got expected : Nat) : String :=
  "Row has " ++ toString got ++ " columns, expected " ++ toString expected

/-- Data-row loop of `parseCSV`: `i` is the index of the current line in the
original `lines` array; blank lines are skipped; a row with an unexpected
field count is still kept but recorded in the diagnostics. -/
def parseCSVRowsAux (delim : Char) (expected : Nat) :
    List String → Nat → List (List String) × List RowError
  | [], _ => ([], [])
  | l :: t, i =>
    let (d, e) := parseCSVRowsAux delim expected t (i + 1)
    if jsTrim l == "" then (d, e)
    else
      let row := parseLine l delim
      if row.length ≠ expected ∧ expected > 0 then
        (row :: d, { row := i + 1, message := rowCountMsg row.length expected } :: e)
      else (row :: d, e)

/-- `parseCSV(content)` from `csvParser.js` with the default options used by
the import orchestrator (`hasHeader = true`, auto-detected delimiter).
`expectedColumns` is `headers.length || ...`: since a header line is always
parsed and `parseLine` returns at least one field, it is `headers.length`. -/
def parseCSV (content : String) : ParsedCSV :=
  if content = "" then
    { rows := [], headers := [],
      errors := [{ row := 0, message := "Empty or invalid content" }], delimiter := ',' }
  else
    let lines := dropTrailingBlank (splitLinesNorm content)
    if lines.isEmpty then
      { rows := [], headers := [],
        errors := [{ row := 0, message := "No data rows found" }], delimiter := ',' }
    else
      let delim := detectDelimiter content
      let headers := parseLine (lines.headD "") delim
      let (body, errs) := parseCSVRowsAux delim headers.length (lines.drop 1) 1
      { rows := body, headers := headers, errors := errs, delimiter := delim }

/-! ## `csvParser.js` — column mapping -/

/-- `HEADER_MAPPINGS.date`. -/
def dateHeaderSynonyms : List String :=
  ["date", "transaction date", "txn date", "value date", "posting date", "trans date"]

/-- `HEADER_MAPPINGS.amount`. -/
def amountHeaderSynonyms : List String :=
  ["amount", "debit", "credit", "withdrawal", "deposit", "transaction amount", "txn amount"]

/-- `HEADER_MAPPINGS.description`. -/
def descriptionHeaderSynonyms : List String :=
  ["description", "narration", "particulars", "details", "remarks",
   "transaction details", "memo"]

/-- `patterns.some(p => header === p || header.includes(p))`. -/
def headerMatches (patterns : List String) (header : String) : Bool :=
  patterns.any (fun p => header == p || strIncludes header p)

/-- Index of the first list element satisfying `p` (each role's `for`-loop
with `break` in `detectColumnMapping`). -/
def firstMatchIdx (p : String → Bool) : List String → Option Nat
  | [] => none
  | h :: t => if p h then some 0 else (firstMatchIdx p t).map (· + 1)

/-- `-1` for a missing role, the found index otherwise. -/
def idxToInt : Option Nat → Int
  | none => -1
  | some i => (i : Int)

/-- Result record of `detectColumnMapping`. -/
structure ColumnMapping where
  date : Int
  amount : Int
  description : Int
  detected : Bool
  missingColumns : List String
deriving Repr, DecidableEq

/-- `headers.map(h => (h || '').toLowerCase().trim())`. -/
def normalizeHeaders (headers : List String) : List String :=
  headers.map (fun h => jsTrim (jsToLower h))

/-- `detectColumnMapping(headers)` from `csvParser.js`.  Each of the three
roles scans the whole normalised header list independently and takes the
first match; nothing prevents two roles from claiming the same index. -/
def detectColumnMapping (headers : List String) : ColumnMapping :=
  if headers.isEmpty then
    { date := -1, amount := -1, description := -1, detected := false,
      missingColumns := ["date", "amount", "description"] }
  else
    let normalized := normalizeHeaders headers
    let d := idxToInt (firstMatchIdx (headerMatches dateHeaderSynonyms) normalized)
    let a := idxToInt (firstMatchIdx (headerMatches amountHeaderSynonyms) normalized)
    let ds := idxToInt (firstMatchIdx (headerMatches descriptionHeaderSynonyms) normalized)
    let missing := (if d = -1 then ["date"] else []) ++ (if a = -1 then ["amount"] else [])
      ++ (if ds = -1 then ["description"] else [])
    { date := d, amount := a, description := ds, detected := missing.isEmpty,
      missingColumns := missing }

/-! ## `csvParser.js` — row extraction -/

/-- A raw extracted transaction (verbatim field text plus 1-based row number
accounting for the header row). -/
structure RawTxn where
  date : String
  amount : String
  description : String
  rowNumber : Nat
deriving Repr, DecidableEq

/-- `row[idx] !== undefined ? row[idx] : ''` — a missing column (negative or
out-of-range index) yields the empty string. -/
def colValue (row : List String) (idx : Int) : String :=
  if idx < 0 then "" else row.getD idx.toNat ""

instance : Inhabited RawTxn :=
  ⟨{ date := "", amount := "", description := "", rowNumber := 0 }⟩

/-- Extraction loop of `extractTransactions` over the data rows; `i` is the
0-based data-row index, so `rowNumber = i + 2` (1 for 1-basing, 1 for the
header row).  Rows are Lean lists, so the `Array.isArray` guard of the JS
loop never fires in the model. -/
def extractTxnsAux (mp : ColumnMapping) : List (List String) → Nat → List RawTxn
  | [], _ => []
  | row :: t, i =>
    { date := colValue row mp.date, amount := colValue row mp.amount,
      description := colValue row mp.description, rowNumber := i + 2 }
      :: extractTxnsAux mp t (i + 1)

/-- `extractTransactions(data, mapping)` from `csvParser.js`. -/
def extractTransactions (rows : List (List String)) (mp : ColumnMapping) :
    List RawTxn × List RowError :=
  if mp.date = -1 ∨ mp.amount = -1 ∨ mp.description = -1 then
    ([], [{ row := 0, message := "Invalid column mapping" }])
  else
    (extractTxnsAux mp rows 0, [])

/-! ## `csvParser.js` — date and amount parsing -/

/-- Exactly `n` decimal digits from the front of a character list. -/
def readNDigits : Nat → List Char → Option (List Char × List Char)
  | 0, cs => some ([], cs)
  | _ + 1, [] => none
  | n + 1, c :: t =>
    if c.isDigit then (readNDigits n t).map (fun p => (c :: p.1, p.2)) else none

/-- One or two decimal digits (`\d{1,2}`; the following character is a
separator, so greedy matching without backtracking is exact here). -/
def read12Digits : List Char → Option (List Char × List Char)
  | [] => none
  | c :: t =>
    if c.isDigit then
      match t with
      | d :: u => if d.isDigit then some ([c, d], u) else some ([c], d :: u)
      | [] => some ([c], [])
    else none

/-- Anchored match of `\d{l1} sep \d{l2} sep \d{l3}` returning the three
numeric groups. -/
def matchFixed3 (l1 : Nat) (sep : Char) (l2 l3 : Nat) (cs : List Char) :
    Option (Nat × Nat × Nat) :=
  match readNDigits l1 cs with
  | none => none
  | some (d1, r1) =>
    match r1 with
    | [] => none
    | s1 :: r2 =>
      if s1 == sep then
        match readNDigits l2 r2 with
        | none => none
        | some (d2, r3) =>
          match r3 with
          | [] => none
          | s2 :: r4 =>
            if s2 == sep then
              match readNDigits l3 r4 with
              | some (d3, []) => some (digitsToNat d1, digitsToNat d2, digitsToNat d3)
              | _ => none
            else none
      else none

/-- Anchored match of `\d{1,2} / \d{1,2} / \d{4}` (the ambiguous US format). -/
def matchFlex3 (cs : List Char) : Option (Nat × Nat × Nat) :=
  match read12Digits cs with
  | none => none
  | some (d1, r1) =>
    match r1 with
    | [] => none
    | s1 :: r2 =>
      if s1 == '/' then
        match read12Digits r2 with
        | none => none
        | some (d2, r3) =>
          match r3 with
          | [] => none
          | s2 :: r4 =>
            if s2 == '/' then
              match readNDigits 4 r4 with
              | some (d3, []) => some (digitsToNat d1, digitsToNat d2, digitsToNat d3)
              | _ => none
            else none
      else none

/-- The `DATE_FORMATS` table: each entry matches its regex and, on success,
builds the `new Date(...)` day count with the argument order of the source
(`YYYY-MM-DD`, `DD/MM/YYYY`, `DD-MM-YYYY`, `MM/DD/YYYY`, `YYYY/MM/DD`). -/
def dateFormatList : List (List Char → Option Int) :=
  [ fun cs => (matchFixed3 4 '-' 2 2 cs).map
      (fun g => jsMakeDay (g.1 : Int) ((g.2.1 : Int) - 1) (g.2.2 : Int)),
    fun cs => (matchFixed3 2 '/' 2 4 cs).map
      (fun g => jsMakeDay (g.2.2 : Int) ((g.2.1 : Int) - 1) (g.1 : Int)),
    fun cs => (matchFixed3 2 '-' 2 4 cs).map
      (fun g => jsMakeDay (g.2.2 : Int) ((g.2.1 : Int) - 1) (g.1 : Int)),
    fun cs => (matchFlex3 cs).map
      (fun g => jsMakeDay (g.2.2 : Int) ((g.1 : Int) - 1) (g.2.1 : Int)),
    fun cs => (matchFixed3 4 '/' 2 2 cs).map
      (fun g => jsMakeDay (g.1 : Int) ((g.2.1 : Int) - 1) (g.2.2 : Int)) ]

/-- Format loop of `parseDate`: on a regex match the constructed date is kept
when its time value is not `NaN` (`jsTimeValid`); otherwise later formats are
tried. -/
def parseDateFirst : List (List Char → Option Int) → List Char → Option Int
  | [], _ => none
  | f :: fs, cs =>
    match f cs with
    | some t => if jsTimeValid t then some t else parseDateFirst fs cs
    | none => parseDateFirst fs cs

/-- `parseDate(dateStr)` from `csvParser.js`: `some dayCount` for
`{valid: true, date}`, `none` for `{valid: false, date: null}`. -/
def parseDate (dateStr : String) : Option Int :=
  parseDateFirst dateFormatList (jsTrim dateStr).data

/-- `str.replace(/[$€£₹,\s]/g, '')`. -/
def stripAmountChars (s : String) : String :=
  String.mk (s.data.filter
    (fun c => ¬ (c == '$' || c == '€' || c == '£' || c == '₹' || c == ',' || c.isWhitespace)))

/-- `parseAmount(amountStr)` from `csvParser.js`: strips currency symbols,
comma separators and whitespace, parses as a float, and accepts only a
strictly positive finite result. -/
def parseAmount (amountStr : String) : Option ℚ :=
  if amountStr = "" then none
  else
    let cleaned := stripAmountChars (jsTrim amountStr)
    match parseFloatChars cleaned.data with
    | none => none
    | some a => if a ≤ 0 then none else some a

/-- Result record of `validateTransaction`. -/
structure ValidationOutcome where
  valid : Bool
  errors : List String
  parsedDate : Option Int
  parsedAmount : Option ℚ
deriving Repr, DecidableEq

/-- `transaction.rowNumber || '?'` (0 is falsy). -/
def rowLabel (n : Nat) : String := if n = 0 then "?" else toString n

/-- `validateTransaction(transaction)` from `csvParser.js`: one row-numbered
error per failing field; a missing amount, a non-positive amount and an
unparsable amount produce three distinct messages. -/
def validateTransaction (t : RawTxn) : ValidationOutcome :=
  let rowNum := rowLabel t.rowNumber
  let dateStep : List String × Option Int :=
    if jsTrim t.date = "" then (["Row " ++ rowNum ++ ": Missing date"], none)
    else match parseDate t.date with
      | none => (["Row " ++ rowNum ++ ": Invalid date format '" ++ t.date ++ "'"], none)
      | some d => ([], some d)
  let amountStep : List String × Option ℚ :=
    if jsTrim t.amount = "" then (["Row " ++ rowNum ++ ": Missing amount"], none)
    else match parseAmount t.amount with
      | none =>
        match parseFloatChars (stripAmountChars (jsTrim t.amount)).data with
        | some v =>
          if v ≤ 0 then
            (["Row " ++ rowNum ++ ": Amount must be positive '" ++ t.amount ++ "'"], none)
          else (["Row " ++ rowNum ++ ": Invalid amount '" ++ t.amount ++ "'"], none)
        | none => (["Row " ++ rowNum ++ ": Invalid amount '" ++ t.amount ++ "'"], none)
      | some a => ([], some a)
  let descErrs : List String :=
    if jsTrim t.description = "" then ["Row " ++ rowNum ++ ": Missing description"] else []
  let errs := dateStep.1 ++ amountStep.1 ++ descErrs
  { valid := errs.isEmpty, errors := errs, parsedDate := dateStep.2,
    parsedAmount := amountStep.2 }

/-! ## `classifier.js` — the persistent correction map -/

/-- `VALID_CATEGORIES` from `classifier.js` (identical to
`EXPENSE_CATEGORIES` in `transactionImport.js`). -/
def VALID_CATEGORIES : List String :=
  ["Food & Dining", "Transportation", "Shopping", "Utilities", "Entertainment",
   "Healthcare", "Subscriptions", "Education", "Housing", "Personal Care",
   "Travel", "Other"]

/-- The correction object persisted under `classifier_corrections` in
`localStorage`: a map from normalised description to category, modelled as an
association list. -/
def CorrectionMap : Type := List (String × String)

/-- JS object assignment `corrections[key] = value`: overwrite the existing
binding or append a new one. -/
def setCorrection (k v : String) : CorrectionMap → CorrectionMap
  | [] => [(k, v)]
  | (k', v') :: t => if k' = k then (k, v) :: t else (k', v') :: setCorrection k v t

/-- `learnFromCorrection(description, category)` from `classifier.js`:
rejects blank descriptions and categories outside `VALID_CATEGORIES`, then
stores `description.trim().toLowerCase() → category`.  Returns the updated
stored correction map. -/
def learnFromCorrection (corrections : CorrectionMap) (description category : String) :
    CorrectionMap :=
  if description = "" then corrections
  else if ¬ VALID_CATEGORIES.contains category then corrections
  else
    let normalizedDesc := jsToLower (jsTrim description)
    if normalizedDesc.length = 0 then corrections
    else setCorrection normalizedDesc category corrections

/-! ## `expenses.js` — duplicate check and batch insert -/

/-- An existing ledger row as selected by the duplicate check
(`date, amount, expense_name`). -/
structure LedgerEntry where
  date : String
  amount : ℚ
  expense_name : String
deriving Repr, DecidableEq

/-- A record prepared for the duplicate check and batch insert. -/
structure DBRecord where
  date : String
  amount : ℚ
  description : String
  category : String
deriving Repr, DecidableEq

/-- The per-pair test inside `checkDuplicates`: exact date-string equality,
amount difference within `AMOUNT_TOLERANCE = 0.01`, and case-insensitive
description equality — a conjunction of all three. -/
def isDupMatch (e : LedgerEntry) (t : DBRecord) : Bool :=
  (e.date == t.date) && decide (|e.amount - t.amount| ≤ 1 / 100)
    && (jsToLower e.expense_name == jsToLower t.description)

/-- The partition loop of `checkDuplicates`: each candidate goes to
`duplicates` when some existing entry matches, otherwise to `unique`. -/
def checkDuplicatesCore (existing : List LedgerEntry) :
    List DBRecord → List DBRecord × List DBRecord
  | [] => ([], [])
  | t :: rest =>
    let (d, u) := checkDuplicatesCore existing rest
    if existing.any (fun e => isDupMatch e t) then (t :: d, u) else (d, t :: u)

/-- Result record of `checkDuplicates`. -/
structure DupResult where
  duplicates : List DBRecord
  unique : List DBRecord
  error : Option String
deriving Repr, DecidableEq

/-- `checkDuplicates(transactions)` from `expenses.js`, with the awaited
collaborator outcomes passed in: `auth` is whether `supabase.auth.getUser()`
returned a user, `fetchErr` whether the select of existing expenses errored,
`existing` the fetched ledger rows. -/
def checkDuplicates (auth : Bool) (fetchErr : Bool) (existing : List LedgerEntry)
    (txs : List DBRecord) : DupResult :=
  if ¬ auth then { duplicates := [], unique := [], error := some "User not authenticated" }
  else if fetchErr then
    { duplicates := [], unique := [], error := some "Unable to check for duplicates." }
  else
    let (d, u) := checkDuplicatesCore existing txs
    { duplicates := d, unique := u, error := none }

/-- Result record of `batchImportTransactions`. -/
structure InsertOutcome where
  imported : Nat
  failed : List DBRecord
  errors : List String
deriving Repr, DecidableEq

/-- `batchImportTransactions(transactions)` from `expenses.js`, with the
awaited collaborator outcomes passed in (`remoteError`: the single batch
insert call rejected; `insertedCount`: `data.length` of the insert response).
The insert is all-or-nothing: on error every record is reported failed. -/
def batchImportTransactions (auth : Bool) (txs : List DBRecord) (remoteError : Bool)
    (insertedCount : Nat) : InsertOutcome :=
  if ¬ auth then { imported := 0, failed := txs, errors := ["User not authenticated"] }
  else if txs.isEmpty then { imported := 0, failed := [], errors := [] }
  else if remoteError then
    { imported := 0, failed := txs,
      errors := ["Unable to save transactions. Please try again."] }
  else { imported := insertedCount, failed := [], errors := [] }

/-! ## `transactionImport.js` — session state -/

/-- The workflow step strings of `importState.step`. -/
inductive Step where
  | upload
  | preview
  | importing
  | complete
  | error
deriving Repr, DecidableEq

/-- A candidate transaction as built by `processFile` (raw text, parsed
values, validation outcome, classification, selection flag). -/
structure Txn where
  date : Option Int
  amount : Option ℚ
  rawDate : String
  rawAmount : String
  description : String
  category : String
  rowNumber : Nat
  isValid : Bool
  errors : List String
  selected : Bool
deriving Repr, DecidableEq

instance : Inhabited Txn :=
  ⟨{ date := none, amount := none, rawDate := "", rawAmount := "", description := "",
     category := "", rowNumber := 0, isValid := false, errors := [], selected := false }⟩

/-- `importState.summary`. -/
structure Summary where
  total : Nat
  valid : Nat
  invalid : Nat
  selected : Nat
  duplicates : Nat
  totalAmount : ℚ
deriving Repr, DecidableEq

/-- `createInitialState().summary`. -/
def initialSummary : Summary :=
  { total := 0, valid := 0, invalid := 0, selected := 0, duplicates := 0, totalAmount := 0 }

/-- `importState`. -/
structure ImportState where
  step : Step
  file : Option JsFile
  transactions : List Txn
  summary : Summary
  progress : Nat
  error : Option String
deriving Repr, DecidableEq

/-- `createInitialState()` from `transactionImport.js`. -/
def createInitialState : ImportState :=
  { step := .upload, file := none, transactions := [], summary := initialSummary,
    progress := 0, error := none }

/-- `calculateSummary(transactions)` from `transactionImport.js`. -/
def calculateSummary (ts : List Txn) : Summary :=
  let total := ts.length
  let valid := (ts.filter (fun t => t.isValid)).length
  let selected := (ts.filter (fun t => t.selected)).length
  let totalAmount := ((ts.filter (fun t => t.isValid && t.selected)).map
    (fun t => t.amount.getD 0)).foldl (· + ·) 0
  { total := total, valid := valid, invalid := total - valid, selected := selected,
    duplicates := 0, totalAmount := totalAmount }

/-- The comparator of `sortTransactionsByDate` as a `Bool` order
(`compare(a, b) ≤ 0`): null dates after all dated rows, dated rows by
descending time value. -/
def jsSortLE (a b : Txn) : Bool :=
  match a.date, b.date with
  | none, none => true
  | none, some _ => false
  | some _, none => true
  | some ta, some tb => decide (tb ≤ ta)

/-- `sortTransactionsByDate(transactions)` from `transactionImport.js`.
`Array.prototype.sort` with a consistent comparator is specified to produce
the unique stable order sorted by the comparator, which is exactly
`List.mergeSort` under `jsSortLE`; the source sorts a copy
(`[...transactions]`), leaving its argument unchanged, which the functional
embedding reflects by construction. -/
def sortTransactionsByDate (ts : List Txn) : List Txn := ts.mergeSort jsSortLE

/-- `toggleTransactionSelection(index)`: no-op (returning `false`) on an
out-of-range index or an invalid row; otherwise flips the row's `selected`
flag and recomputes the summary, returning the new flag. -/
def toggleTransactionSelection (st : ImportState) (index : Int) : ImportState × Bool :=
  if index < 0 ∨ (st.transactions.length : Int) ≤ index then (st, false)
  else
    let i := index.toNat
    let t := st.transactions.getD i default
    if ¬ t.isValid then (st, false)
    else
      let newSelected := ! t.selected
      let ts' := st.transactions.set i { t with selected := newSelected }
      ({ st with transactions := ts', summary := calculateSummary ts' }, newSelected)

/-- `selectAllTransactions(selected)`: sets every valid row's flag to
`selected`, forces invalid rows to `false`, recomputes the summary. -/
def selectAllTransactions (st : ImportState) (sel : Bool) : ImportState :=
  let ts' := st.transactions.map
    (fun t => { t with selected := if t.isValid then sel else false })
  { st with transactions := ts', summary := calculateSummary ts' }

/-- `updateTransactionCategory(index, category)` from `transactionImport.js`:
guards the index range and that the category is a non-empty string, then
replaces the row's `category`.  The summary is not recomputed, and — despite
the function's doc comment promising to trigger learning — no call into the
classifier's `learnFromCorrection` is made. -/
def updateTransactionCategory (st : ImportState) (index : Int) (category : String) :
    ImportState × Bool :=
  if index < 0 ∨ (st.transactions.length : Int) ≤ index then (st, false)
  else if category = "" then (st, false)
  else
    let i := index.toNat
    let t := st.transactions.getD i default
    ({ st with transactions := st.transactions.set i { t with category := category } }, true)

/-- `formatDateForDB(date)`: `YYYY-MM-DD` with zero-padded month and day,
`''` for a null date. -/
def pad2 (n : Int) : String := if n < 10 then "0" ++ toString n else toString n

/-- `formatDateForDB` proper. -/
def formatDateForDB : Option Int → String
  | none => ""
  | some days =>
    let c := civilFromDays days
    toString c.1 ++ "-" ++ pad2 c.2.1 ++ "-" ++ pad2 c.2.2

/-- The record `importTransactions` builds for each selected transaction.
A selected transaction is valid, hence carries a parsed amount; `getD 0`
only totalises the projection. -/
def toDBRecord (t : Txn) : DBRecord :=
  { date := formatDateForDB t.date, amount := t.amount.getD 0,
    description := t.description, category := t.category }

/-! ## `transactionImport.js` — commit -/

/-- The awaited collaborator outcomes consumed during one commit: the auth
check, the ledger fetch of the duplicate check, and the batch-insert
response. -/
structure ImportEnv where
  auth : Bool
  fetchErr : Bool
  existing : List LedgerEntry
  insertRemoteError : Bool
  insertedCount : Nat
deriving Repr, DecidableEq

/-- Which collaborator round-trips a commit call actually issued. -/
structure ImportCallLog where
  dupCheckCalled : Bool
  insertCalled : Bool
deriving Repr, DecidableEq

/-- The result object of `importTransactions` (`duplicates := none` models a
result object without a `duplicates` key). -/
structure ImportResult where
  success : Bool
  imported : Nat
  failed : Nat
  duplicates : Option Nat
  errors : List String
deriving Repr, DecidableEq

/-- The partial-failure message
`` `${imported} of ${total} transactions imported. ${failedCount} failed.` ``. -/
def countsMsg (imported total failedCount : Nat) : String :=
  toString imported ++ " of " ++ toString total ++ " transactions imported. "
    ++ toString failedCount ++ " failed."

/-- `` `${n} duplicate transactions skipped` ``. -/
def dupSkippedMsg (n : Nat) : String := toString n ++ " duplicate transactions skipped"

/-- `importTransactions()` from `transactionImport.js`: the re-entrancy guard,
selected-valid filtering, duplicate check, summary update and batch insert
with its success/failure branches, returning the final state, the result
object and a log of which collaborator calls were issued. -/
def importTransactions (st : ImportState) (env : ImportEnv) :
    ImportState × ImportResult × ImportCallLog :=
  if st.step = Step.importing then
    (st, { success := false, imported := 0, failed := 0, duplicates := none,
           errors := ["Import already in progress"] },
     { dupCheckCalled := false, insertCalled := false })
  else
    let st1 := { st with step := Step.importing, progress := 0 }
    let selectedTxns := st.transactions.filter (fun t => t.isValid && t.selected)
    if selectedTxns.isEmpty then
      ({ st1 with step := Step.preview, progress := 100 },
       { success := true, imported := 0, failed := 0, duplicates := none, errors := [] },
       { dupCheckCalled := false, insertCalled := false })
    else
      let st2 := { st1 with progress := 20 }
      let toImport := selectedTxns.map toDBRecord
      let dup := checkDuplicates env.auth env.fetchErr env.existing toImport
      match dup.error with
      | some msg =>
        ({ st2 with step := Step.error, error := some msg },
         { success := false, imported := 0, failed := selectedTxns.length,
           duplicates := none, errors := [msg] },
         { dupCheckCalled := true, insertCalled := false })
      | none =>
        let st3 := { st2 with progress := 50 }
        let st4 := { st3 with summary :=
          { st3.summary with duplicates := dup.duplicates.length } }
        if dup.unique.isEmpty then
          ({ st4 with step := Step.complete, progress := 100 },
           { success := true, imported := 0, failed := 0,
             duplicates := some dup.duplicates.length,
             errors := if dup.duplicates.length > 0
               then [dupSkippedMsg dup.duplicates.length] else [] },
           { dupCheckCalled := true, insertCalled := false })
        else
          let ins := batchImportTransactions env.auth dup.unique env.insertRemoteError
            env.insertedCount
          let st5 := { st4 with progress := 100 }
          if ¬ ins.failed.isEmpty then
            ({ st5 with
                step := Step.error,
                error := some (countsMsg ins.imported dup.unique.length ins.failed.length) },
             { success := false, imported := ins.imported, failed := ins.failed.length,
               duplicates := some dup.duplicates.length, errors := ins.errors },
             { dupCheckCalled := true, insertCalled := true })
          else
            ({ st5 with step := Step.complete },
             { success := true, imported := ins.imported, failed := 0,
               duplicates := some dup.duplicates.length, errors := [] },
             { dupCheckCalled := true, insertCalled := true })

/-! ## `transactionImport.js` — file processing and dialog close -/

/-- The unsupported-file-type message built in `processFile`. -/
def pdfImageMsg (isPdf : Bool) : String :=
  (if isPdf then "PDF" else "Image") ++ " file detected. Automatic text extraction from "
    ++ (if isPdf then "PDF documents" else "images")
    ++ " is coming soon. For now, please export your bank statement as a CSV file for best results."

/-- The missing-columns message built in `processFile`. -/
def missingColsMsg (cols : List String) : String :=
  "Missing required columns: " ++ String.intercalate ", " cols
    ++ ". Please ensure your CSV has date, amount, and description columns."

/-- `processFile(file)` from `transactionImport.js`, with the awaited file
read passed in (`readOk`, `content`).  Runs the gate, the type dispatch, the
CSV parse, column mapping, extraction, per-row validation (auto-selecting
valid rows), default categorisation (the classifier call was removed from
this module, so every row gets `'Other'`), the date-descending sort and the
summary.  Returns the new state, a success flag and the error message. -/
def processFile (st : ImportState) (file : Option JsFile) (readOk : Bool)
    (content : String) : ImportState × Bool × Option String :=
  let v := validateFile file
  if ¬ v.valid then
    ({ st with step := Step.error, error := v.error.map validationMessage }, false,
     v.error.map validationMessage)
  else
    let st1 := { st with file := file, step := Step.upload, progress := 10 }
    if v.fileType = some "pdf" ∨ v.fileType = some "image" then
      let msg := pdfImageMsg (v.fileType = some "pdf")
      ({ st1 with step := Step.error, error := some msg }, false, some msg)
    else if ¬ readOk then
      let msg := "Unable to read file. Please try again."
      ({ st1 with step := Step.error, error := some msg }, false, some msg)
    else
      let st2 := { st1 with progress := 30 }
      let pr := parseCSV content
      if ¬ pr.errors.isEmpty ∧ pr.rows.isEmpty then
        let msg := "Unable to parse CSV: " ++ ((pr.errors.headD ⟨0, ""⟩).message)
        ({ st2 with step := Step.error, error := some msg }, false, some msg)
      else
        let mp := detectColumnMapping pr.headers
        if ¬ mp.detected then
          let msg := missingColsMsg mp.missingColumns
          ({ st2 with step := Step.error, error := some msg }, false, some msg)
        else
          let st3 := { st2 with progress := 50 }
          let extracted := extractTransactions pr.rows mp
          if extracted.1.isEmpty then
            let msg := "No transaction data found in the file."
            ({ st3 with step := Step.error, error := some msg }, false, some msg)
          else
            let st4 := { st3 with progress := 60 }
            let validated := extracted.1.map (fun t =>
              let vr := validateTransaction t
              { date := vr.parsedDate, amount := vr.parsedAmount, rawDate := t.date,
                rawAmount := t.amount, description := t.description,
                category := "Other", rowNumber := t.rowNumber, isValid := vr.valid,
                errors := vr.errors, selected := vr.valid : Txn })
            let sorted := sortTransactionsByDate validated
            ({ st4 with
                step := Step.preview,
                transactions := sorted,
                summary := calculateSummary sorted,
                progress := 100,
                error := none },
             true, none)

/-- `closeImportDialog()`: clears the file reference and resets the whole
session to its initial state. -/
def closeImportDialog (_st : ImportState) : ImportState := createInitialState

/-! ## The orchestrator's operations and reachable states -/

/-- One user-driven operation on the session, with the awaited external
outcomes it consumes. -/
inductive ImportOp where
  | process (file : Option JsFile) (readOk : Bool) (content : String)
  | toggle (index : Int)
  | selectAll (sel : Bool)
  | setCategory (index : Int) (category : String)
  | runImport (env : ImportEnv)
  | close

/-- The state transition of each operation (result values projected away). -/
def applyOp (st : ImportState) : ImportOp → ImportState
  | .process f ok c => (processFile st f ok c).1
  | .toggle i => (toggleTransactionSelection st i).1
  | .selectAll b => selectAllTransactions st b
  | .setCategory i c => (updateTransactionCategory st i c).1
  | .runImport env => (importTransactions st env).1
  | .close => closeImportDialog st

/-- The session state after a sequence of operations from the fresh state. -/
def runOps (ops : List ImportOp) : ImportState := ops.foldl applyOp createInitialState

/-- The selection invariant of claim C7: the summary's `selected` counter
agrees with the number of selected rows, and selected rows are valid. -/
def SessionInvariant (st : ImportState) : Prop :=
  st.summary.selected = (st.transactions.filter (fun t => t.selected)).length ∧
  ∀ t ∈ st.transactions, t.selected = true → t.isValid = true

/-! ## The combined system state for the correction-learning claim -/

/-- The session together with the classifier's persistent correction store —
everything the category-override flow could touch. -/
structure SystemState where
  session : ImportState
  corrections : CorrectionMap

/-- The category-change handler as wired in `transactionImport.js`
(`handleCategoryChange` → `updateTransactionCategory`): it updates the
session only; no call into `learnFromCorrection` exists in the module. -/
def handleCategoryChange (sys : SystemState) (index : Int) (category : String) :
    SystemState :=
  { sys with session := (updateTransactionCategory sys.session index category).1 }

/-! ## Concrete instances used by witnesses and counterexamples -/

/-- A valid, selected candidate row ("xyz mart"). -/
def xyzMartTxn : Txn :=
  { date := some 19737, amount := some 100, rawDate := "2024-01-15", rawAmount := "100",
    description := "xyz mart", category := "Other", rowNumber := 2, isValid := true,
    errors := [], selected := true }

/-- A previewing session holding just `xyzMartTxn`. -/
def previewSession : ImportState :=
  { createInitialState with
      step := Step.preview,
      transactions := [xyzMartTxn],
      summary := calculateSummary [xyzMartTxn] }

/-- The system state for the category-override scenario: the previewing
session with an empty persistent correction store. -/
def previewSystem : SystemState := { session := previewSession, corrections := [] }

/-- A session already in the committing step. -/
def committingSession : ImportState := { createInitialState with step := Step.importing }

/-- A benign commit environment. -/
def okEnv : ImportEnv :=
  { auth := true, fetchErr := false, existing := [], insertRemoteError := false,
    insertedCount := 1 }

/-- A commit environment whose batch insert is rejected by the store. -/
def insertFailEnv : ImportEnv :=
  { auth := true, fetchErr := false, existing := [], insertRemoteError := true,
    insertedCount := 0 }

/-- The first-match characterisation of one role's scan in
`detectColumnMapping`: either the role is `-1` and no header matches, or the
role holds the leftmost matching index. -/
def roleFirstSpec (idx : Int) (p : String → Bool) (hs : List String) : Prop :=
  (idx = -1 ∧ ∀ i, i < hs.length → p (hs.getD i "") = false) ∨
  (∃ i : Nat, idx = (i : Int) ∧ i < hs.length ∧ p (hs.getD i "") = true ∧
    ∀ j, j < i → p (hs.getD j "") = false)

/-- The display order of the sorted preview: a row with a null parsed date
never precedes a dated row, and dated rows are in descending date order. -/
def dateOrder (a b : Txn) : Prop :=
  match a.date, b.date with
  | none, none => True
  | none, some _ => False
  | some _, none => True
  | some ta, some tb => tb ≤ ta

/-! # Theorems settling the claims -/

/-- C1: the claim says `parseDate` rejects structurally matching strings that
name an impossible calendar date (e.g. month 13), letting a later format win
or the parse fail.  The code does not: `new Date(2024, 12, 1)` rolls the
month over, so `"2024-13-01"` — which matches the first format's regex but
names no calendar date — parses successfully to 2025-01-01 (civil day 20089),
because `isNaN(date.getTime())` never holds for all-digit components inside
the ECMAScript time range.  This theorem evaluates the embedded `parseDate`
at that failing input. -/
theorem parseDate_accepts_month13 :
    parseDate "2024-13-01" = some 20089 ∧ daysFromCivil 2025 1 1 = 20089 := by
  constructor <;> rfl

/-- C2: the claim (and the function's own doc comment) says the per-row
category override records a correction in the persistent CorrectionMap.  The
wired handler (`handleCategoryChange` → `updateTransactionCategory`) updates
the row's category but never calls `learnFromCorrection`, so the correction
store stays empty; the final conjunct shows the recording that
`learnFromCorrection` would have made for this input, demonstrating the call
is not a no-op but simply absent. -/
theorem updateCategory_records_no_correction :
    (handleCategoryChange previewSystem 0 "Shopping").corrections = [] ∧
    (handleCategoryChange previewSystem 0 "Shopping").session.transactions.map
      (fun t => t.category) = ["Shopping"] ∧
    learnFromCorrection [] "xyz mart" "Shopping" = [("xyz mart", "Shopping")] := by
  refine ⟨rfl, ?_, ?_⟩ <;> rfl

/-- One role's header scan assigns exactly the first matching index. -/
theorem firstMatchIdx_roleFirstSpec (p : String → Bool) (hs : List String) :
    roleFirstSpec (idxToInt (firstMatchIdx p hs)) p hs := by
  induction hs with
  | nil => exact Or.inl ⟨rfl, fun i hi => absurd hi (by simp)⟩
  | cons h t ih =>
    by_cases hp : p h
    · exact Or.inr ⟨0, by simp [firstMatchIdx, hp, idxToInt], by simp, by simpa using hp,
        fun j hj => absurd hj (Nat.not_lt_zero j)⟩
    · rcases ih with ⟨hnone, hall⟩ | ⟨i, hidx, hlen, hmatch, hbefore⟩
      · refine Or.inl ⟨?_, ?_⟩
        · have : firstMatchIdx p t = none := by
            cases hfm : firstMatchIdx p t with
            | none => rfl
            | some k => rw [hfm] at hnone; simp [idxToInt] at hnone
          simp [firstMatchIdx, hp, this, idxToInt]
        · intro i hi
          match i with
          | 0 => simpa using hp
          | j + 1 =>
            have hj : j < t.length := by simpa using hi
            simpa using hall j hj
      · have hfm : firstMatchIdx p t = some i := by
          cases hfm : firstMatchIdx p t with
          | none => rw [hfm] at hidx; simp [idxToInt] at hidx
          | some k =>
            rw [hfm] at hidx
            simp only [idxToInt] at hidx
            have : k = i := by exact_mod_cast hidx
            rw [this]
        refine Or.inr ⟨i + 1, ?_, by simpa using hlen, by simpa using hmatch, ?_⟩
        · simp [firstMatchIdx, hp, hfm, idxToInt]
        · intro j hj
          match j with
          | 0 => simpa using hp
          | k + 1 =>
            have hk : k < i := by omega
            simpa using hbefore k hk

/-- C3 counterexample: the claim says the three indices returned by
`detectColumnMapping`, where non-negative, are pairwise distinct.  On the
header array `["amount date"]` the single column contains both a date synonym
and an amount synonym, and both independent role scans claim index 0. -/
theorem detectColumnMapping_shared_index :
    0 ≤ (detectColumnMapping ["amount date"]).date ∧
    0 ≤ (detectColumnMapping ["amount date"]).amount ∧
    (detectColumnMapping ["amount date"]).date =
      (detectColumnMapping ["amount date"]).amount := by
  refine ⟨?_, ?_, ?_⟩ <;> decide

/-- C3 (amended): each role is assigned, independently of the other roles,
the first header column (left to right) whose lower-cased, trimmed text
equals or contains one of that role's synonyms, or `-1` when none matches; a
column may be claimed by several roles, and `detected` holds exactly when all
three roles found a column. -/
theorem detectColumnMapping_first_match (headers : List String) :
    roleFirstSpec (detectColumnMapping headers).date
      (headerMatches dateHeaderSynonyms) (normalizeHeaders headers) ∧
    roleFirstSpec (detectColumnMapping headers).amount
      (headerMatches amountHeaderSynonyms) (normalizeHeaders headers) ∧
    roleFirstSpec (detectColumnMapping headers).description
      (headerMatches descriptionHeaderSynonyms) (normalizeHeaders headers) ∧
    ((detectColumnMapping headers).detected = true ↔
      0 ≤ (detectColumnMapping headers).date ∧
      0 ≤ (detectColumnMapping headers).amount ∧
      0 ≤ (detectColumnMapping headers).description) := by
  by_cases hne : headers.isEmpty
  · have : headers = [] := by simpa [List.isEmpty_iff] using hne
    subst this
    refine ⟨Or.inl ⟨rfl, ?_⟩, Or.inl ⟨rfl, ?_⟩, Or.inl ⟨rfl, ?_⟩, by decide⟩ <;>
      intro i hi <;> simp [normalizeHeaders] at hi
  · have hdate : (detectColumnMapping headers).date =
        idxToInt (firstMatchIdx (headerMatches dateHeaderSynonyms)
          (normalizeHeaders headers)) := by
      simp [detectColumnMapping, hne]
    have hamount : (detectColumnMapping headers).amount =
        idxToInt (firstMatchIdx (headerMatches amountHeaderSynonyms)
          (normalizeHeaders headers)) := by
      simp [detectColumnMapping, hne]
    have hdesc : (detectColumnMapping headers).description =
        idxToInt (firstMatchIdx (headerMatches descriptionHeaderSynonyms)
          (normalizeHeaders headers)) := by
      simp [detectColumnMapping, hne]
    refine ⟨hdate ▸ firstMatchIdx_roleFirstSpec _ _,
      hamount ▸ firstMatchIdx_roleFirstSpec _ _,
      hdesc ▸ firstMatchIdx_roleFirstSpec _ _, ?_⟩
    rw [hdate, hamount, hdesc]
    have hdet : (detectColumnMapping headers).detected =
        (((if idxToInt (firstMatchIdx (headerMatches dateHeaderSynonyms)
              (normalizeHeaders headers)) = -1 then ["date"] else []) ++
          (if idxToInt (firstMatchIdx (headerMatches amountHeaderSynonyms)
              (normalizeHeaders headers)) = -1 then ["amount"] else []) ++
          (if idxToInt (firstMatchIdx (headerMatches descriptionHeaderSynonyms)
              (normalizeHeaders headers)) = -1 then ["description"] else [])).isEmpty) := by
      simp [detectColumnMapping, hne]
    rw [hdet]
    cases firstMatchIdx (headerMatches dateHeaderSynonyms) (normalizeHeaders headers) <;>
      cases firstMatchIdx (headerMatches amountHeaderSynonyms) (normalizeHeaders headers) <;>
      cases firstMatchIdx (headerMatches descriptionHeaderSynonyms)
        (normalizeHeaders headers) <;>
      simp [idxToInt]

/-- C3 witness: the amended first-match characterisation applied to a
concrete header array with one synonym per role. -/
theorem detectColumnMapping_first_match_witness :
    (detectColumnMapping ["Txn Date", "Debit", "Narration"]).detected = true :=
  (detectColumnMapping_first_match ["Txn Date", "Debit", "Narration"]).2.2.2.mpr
    ⟨by decide, by decide, by decide⟩

/-- C6: `validateFile` accepts exactly the non-null files whose extension is
in the supported set and whose size is positive and at most 5 MiB (the 5 MiB
boundary itself being valid), and reports `NO_FILE` / `INVALID_EXTENSION` /
`FILE_TOO_LARGE` / `EMPTY_FILE` for the corresponding first failed check. -/
theorem validateFile_spec (f : Option JsFile) :
    ((validateFile f).valid = true ↔
      ∃ fl, f = some fl ∧ fileExtension fl.name ∈ SUPPORTED_EXTENSIONS ∧
        0 < fl.size ∧ fl.size ≤ MAX_FILE_SIZE) ∧
    ((validateFile f).error = some FileError.NO_FILE ↔ f = none) ∧
    (∀ fl, f = some fl →
      ((validateFile f).error = some FileError.INVALID_EXTENSION ↔
        fileExtension fl.name ∉ SUPPORTED_EXTENSIONS)) ∧
    (∀ fl, f = some fl → fileExtension fl.name ∈ SUPPORTED_EXTENSIONS →
      ((validateFile f).error = some FileError.FILE_TOO_LARGE ↔
        MAX_FILE_SIZE < fl.size)) ∧
    (∀ fl, f = some fl → fileExtension fl.name ∈ SUPPORTED_EXTENSIONS →
      fl.size ≤ MAX_FILE_SIZE →
      ((validateFile f).error = some FileError.EMPTY_FILE ↔ fl.size = 0)) := by
  cases f with
  | none => simp [validateFile]
  | some fl =>
    have hmem : SUPPORTED_EXTENSIONS.contains (fileExtension fl.name) = true ↔
        fileExtension fl.name ∈ SUPPORTED_EXTENSIONS := by
      simp [List.contains_iff_exists_mem_beq, beq_iff_eq]
    by_cases hext : fileExtension fl.name ∈ SUPPORTED_EXTENSIONS
    · by_cases hbig : MAX_FILE_SIZE < fl.size
      · refine ⟨?_, ?_, ?_, ?_, ?_⟩ <;>
          simp [validateFile, hmem.mpr hext, hbig, hext]
      · by_cases hzero : fl.size = 0
        · refine ⟨?_, ?_, ?_, ?_, ?_⟩ <;>
            simp [validateFile, hmem.mpr hext, hbig, hzero, hext]
        · refine ⟨?_, ?_, ?_, ?_, ?_⟩ <;>
            simp [validateFile, hmem.mpr hext, hbig, hzero, hext] <;> omega
    · have : ¬ SUPPORTED_EXTENSIONS.contains (fileExtension fl.name) = true := by
        simpa [hmem] using hext
      refine ⟨?_, ?_, ?_, ?_, ?_⟩ <;> simp [validateFile, this, hext]

/-- C6 witness: a CSV file of exactly 5 MiB is accepted. -/
theorem validateFile_spec_witness :
    (validateFile (some { name := "statement.csv", size := 5242880 })).valid = true :=
  (validateFile_spec (some { name := "statement.csv", size := 5242880 })).1.mpr
    ⟨{ name := "statement.csv", size := 5242880 }, rfl, by decide, by decide, by decide⟩

/-- The partition loop of the duplicate check keeps, in order, exactly the
candidates some existing entry matches. -/
theorem checkDuplicatesCore_fst (ex : List LedgerEntry) (txs : List DBRecord) :
    (checkDuplicatesCore ex txs).1 = txs.filter (fun t => ex.any (fun e => isDupMatch e t)) := by
  induction txs with
  | nil => rfl
  | cons hd tl ih =>
    cases hm : ex.any (fun e => isDupMatch e hd) <;>
      simp [checkDuplicatesCore, hm, List.filter, ih]

/-- The partition loop of the duplicate check keeps, in order, exactly the
candidates no existing entry matches. -/
theorem checkDuplicatesCore_snd (ex : List LedgerEntry) (txs : List DBRecord) :
    (checkDuplicatesCore ex txs).2 =
      txs.filter (fun t => !(ex.any (fun e => isDupMatch e t))) := by
  induction txs with
  | nil => rfl
  | cons hd tl ih =>
    cases hm : ex.any (fun e => isDupMatch e hd) <;>
      simp [checkDuplicatesCore, hm, List.filter, ih]

/-- A Boolean filter and its negation split a list's length. -/
theorem length_filter_bool_add {α : Type} (p : α → Bool) (l : List α) :
    (l.filter p).length + (l.filter (fun a => !(p a))).length = l.length := by
  induction l with
  | nil => rfl
  | cons h t ih => cases hp : p h <;> simp [List.filter, hp] <;> omega

/-- The Boolean per-pair test of `checkDuplicates`, in propositional form:
exact date equality, amount difference within 0.01, case-insensitive
description equality. -/
theorem exists_isDupMatch_iff (ex : List LedgerEntry) (t : DBRecord) :
    ex.any (fun e => isDupMatch e t) = true ↔
      ∃ e ∈ ex, e.date = t.date ∧ |e.amount - t.amount| ≤ 1 / 100 ∧
        jsToLower e.expense_name = jsToLower t.description := by
  simp [List.any_eq_true, isDupMatch, Bool.and_eq_true, beq_iff_eq,
    decide_eq_true_iff, and_assoc]

/-- C5: a candidate lands in the `duplicates` list of the duplicate check iff
some existing ledger entry agrees with it on all of: exact date-string
equality, absolute amount difference at most 0.01, and case-insensitive
description equality; it lands in `unique` iff no existing entry does; and
the two lists together account for every candidate. -/
theorem checkDuplicates_spec (existing : List LedgerEntry) (txs : List DBRecord) :
    (∀ t, t ∈ (checkDuplicates true false existing txs).duplicates ↔
      t ∈ txs ∧ ∃ e ∈ existing, e.date = t.date ∧ |e.amount - t.amount| ≤ 1 / 100 ∧
        jsToLower e.expense_name = jsToLower t.description) ∧
    (∀ t, t ∈ (checkDuplicates true false existing txs).unique ↔
      t ∈ txs ∧ ¬ ∃ e ∈ existing, e.date = t.date ∧ |e.amount - t.amount| ≤ 1 / 100 ∧
        jsToLower e.expense_name = jsToLower t.description) ∧
    ((checkDuplicates true false existing txs).duplicates.length +
      (checkDuplicates true false existing txs).unique.length = txs.length) := by
  have hd : (checkDuplicates true false existing txs).duplicates =
      txs.filter (fun t => existing.any (fun e => isDupMatch e t)) := by
    simp [checkDuplicates, checkDuplicatesCore_fst]
  have hu : (checkDuplicates true false existing txs).unique =
      txs.filter (fun t => !(existing.any (fun e => isDupMatch e t))) := by
    simp [checkDuplicates, checkDuplicatesCore_snd]
  refine ⟨?_, ?_, ?_⟩
  · intro t
    rw [hd, List.mem_filter, exists_isDupMatch_iff]
  · intro t
    rw [hu, List.mem_filter]
    rw [← exists_isDupMatch_iff existing t]
    simp
  · rw [hd, hu]
    exact length_filter_bool_add _ txs

/-- C5 witness: with the same date and case-insensitively equal description,
an amount differing by 0.02 exceeds the 0.01 tolerance, so the candidate is
reported unique. -/
theorem checkDuplicates_spec_witness :
    ({ date := "2024-01-15", amount := 100, description := "Coffee",
       category := "Other" } : DBRecord) ∈
      (checkDuplicates true false
        [{ date := "2024-01-15", amount := 10002 / 100, expense_name := "coffee" }]
        [{ date := "2024-01-15", amount := 100, description := "Coffee",
           category := "Other" }]).unique :=
  ((checkDuplicates_spec
      [{ date := "2024-01-15", amount := 10002 / 100, expense_name := "coffee" }]
      [{ date := "2024-01-15", amount := 100, description := "Coffee",
         category := "Other" }]).2.1 _).mpr
    ⟨List.mem_singleton.mpr rfl, by
      rintro ⟨e, he, _, hamt, _⟩
      rw [List.mem_singleton] at he
      subst he
      norm_num [abs_le] at hamt⟩

/-- C4: a commit invoked while the session is already in the committing
(`'importing'`) step returns the failure result whose single error is
"Import already in progress", leaves the session state untouched, and issues
neither the duplicate-check nor the insert call. -/
theorem importTransactions_reentrant_guard (st : ImportState) (env : ImportEnv)
    (h : st.step = Step.importing) :
    importTransactions st env =
      (st,
       { success := false, imported := 0, failed := 0, duplicates := none,
         errors := ["Import already in progress"] },
       { dupCheckCalled := false, insertCalled := false }) := by
  simp [importTransactions, h]

/-- C4 witness: the guard applied to a concrete committing session. -/
theorem importTransactions_reentrant_guard_witness :
    committingSession.step = Step.importing ∧
    importTransactions committingSession okEnv =
      (committingSession,
       { success := false, imported := 0, failed := 0, duplicates := none,
         errors := ["Import already in progress"] },
       { dupCheckCalled := false, insertCalled := false }) :=
  ⟨rfl, importTransactions_reentrant_guard committingSession okEnv rfl⟩

/-- Length of the extraction loop's output. -/
theorem extractTxnsAux_length (mp : ColumnMapping) (rows : List (List String)) (n : Nat) :
    (extractTxnsAux mp rows n).length = rows.length := by
  induction rows generalizing n with
  | nil => rfl
  | cons r t ih => simp [extractTxnsAux, ih]

/-- Each output row of the extraction loop, by index. -/
theorem extractTxnsAux_getD (mp : ColumnMapping) (rows : List (List String)) (n i : Nat)
    (h : i < rows.length) :
    (extractTxnsAux mp rows n).getD i default =
      { date := colValue (rows.getD i []) mp.date,
        amount := colValue (rows.getD i []) mp.amount,
        description := colValue (rows.getD i []) mp.description,
        rowNumber := n + i + 2 } := by
  induction rows generalizing n i with
  | nil => exact absurd h (by simp)
  | cons r t ih =>
    match i with
    | 0 => simp [extractTxnsAux]
    | j + 1 =>
      have hj : j < t.length := by simpa using h
      have := ih (n + 1) j hj
      simpa [extractTxnsAux, Nat.add_assoc, Nat.add_comm, Nat.add_left_comm] using this

/-- A mapped column index at or beyond the row's length reads as the empty
string. -/
theorem colValue_out_of_range (row : List String) (k : Int) (h : (row.length : Int) ≤ k) :
    colValue row k = "" := by
  unfold colValue
  split
  · rfl
  · rename_i hk
    have hk0 : 0 ≤ k := le_of_not_lt hk
    have : row.length ≤ k.toNat := by omega
    exact List.getD_eq_default _ _ this

/-- C10: with a complete column mapping (all three indices non-negative),
`extractTransactions` is total and error-free: every data row yields exactly
one raw transaction whose `rowNumber` is its 0-based index plus 2 and whose
fields are read through `colValue`, which yields `""` (not a failure) when
the mapped index lies beyond the row's length. -/
theorem extractTransactions_total (rows : List (List String)) (mp : ColumnMapping)
    (hdate : 0 ≤ mp.date) (hamount : 0 ≤ mp.amount) (hdesc : 0 ≤ mp.description) :
    (extractTransactions rows mp).2 = [] ∧
    (extractTransactions rows mp).1.length = rows.length ∧
    (∀ i, i < rows.length →
      (extractTransactions rows mp).1.getD i default =
        { date := colValue (rows.getD i []) mp.date,
          amount := colValue (rows.getD i []) mp.amount,
          description := colValue (rows.getD i []) mp.description,
          rowNumber := i + 2 }) ∧
    (∀ row : List String, ∀ k : Int, (row.length : Int) ≤ k → colValue row k = "") := by
  have hd : mp.date ≠ -1 := by omega
  have ha : mp.amount ≠ -1 := by omega
  have hs : mp.description ≠ -1 := by omega
  have hmain : extractTransactions rows mp = (extractTxnsAux mp rows 0, []) := by
    simp [extractTransactions, hd, ha, hs]
  refine ⟨by rw [hmain], by rw [hmain]; exact extractTxnsAux_length mp rows 0, ?_, ?_⟩
  · intro i hi
    rw [hmain]
    simpa using extractTxnsAux_getD mp rows 0 i hi
  · intro row k hk
    exact colValue_out_of_range row k hk

/-- C10 witness: a two-column row under a mapping whose description index is
out of range yields one transaction with an empty description. -/
theorem extractTransactions_total_witness :
    (extractTransactions [["2024-01-15", "100"]]
        { date := 0, amount := 1, description := 5, detected := true,
          missingColumns := [] }).1.getD 0 default =
      { date := "2024-01-15", amount := "100", description := "", rowNumber := 2 } := by
  have h := (extractTransactions_total [["2024-01-15", "100"]]
    { date := 0, amount := 1, description := 5, detected := true, missingColumns := [] }
    (by decide) (by decide) (by decide)).2.2.1 0 (by decide)
  rw [h]
  rfl

/-- The sort comparator is total. -/
theorem jsSortLE_total (a b : Txn) : (jsSortLE a b || jsSortLE b a) = true := by
  unfold jsSortLE
  cases ha : a.date <;> cases hb : b.date <;> simp
  omega

/-- The sort comparator is transitive. -/
theorem jsSortLE_trans (a b c : Txn) (hab : jsSortLE a b) (hbc : jsSortLE b c) :
    jsSortLE a c := by
  unfold jsSortLE at *
  cases ha : a.date <;> cases hb : b.date <;> cases hc : c.date <;>
    simp_all
  omega

/-- The comparator, in propositional display order. -/
theorem jsSortLE_dateOrder (a b : Txn) (h : jsSortLE a b = true) : dateOrder a b := by
  unfold jsSortLE at h
  unfold dateOrder
  cases ha : a.date <;> cases hb : b.date <;> simp_all

/-- Equal parsed dates make the comparator accept the left element. -/
theorem jsSortLE_of_eq_date (a b : Txn) (h : a.date = b.date) : jsSortLE a b = true := by
  unfold jsSortLE
  rw [h]
  cases hb : b.date <;> simp

/-- C9: `sortTransactionsByDate` returns a permutation of its input that is
ordered by parsed date descending with null dates after every dated row
(`dateOrder` pairwise), and it is stable: two rows with the same parsed date
(null included) keep their relative input order.  The source sorts a spread
copy of the array, so the input itself is unmodified — in this functional
embedding, by construction. -/
theorem sortTransactionsByDate_spec (l : List Txn) :
    List.Perm (sortTransactionsByDate l) l ∧
    List.Pairwise dateOrder (sortTransactionsByDate l) ∧
    (∀ a b : Txn, a.date = b.date → List.Sublist [a, b] l →
      List.Sublist [a, b] (sortTransactionsByDate l)) := by
  refine ⟨List.mergeSort_perm l jsSortLE, ?_, ?_⟩
  · exact (List.sorted_mergeSort
      (fun a b c hab hbc => jsSortLE_trans a b c hab hbc)
      (fun a b => jsSortLE_total a b) l).imp
      (fun hab => jsSortLE_dateOrder _ _ hab)
  · intro a b hdate hsub
    exact List.pair_sublist_mergeSort
      (fun a b c hab hbc => jsSortLE_trans a b c hab hbc)
      (fun a b => jsSortLE_total a b)
      (jsSortLE_of_eq_date a b hdate) hsub

/-- C9 witness: two rows with the same parsed date keep their input order in
the sorted output. -/
theorem sortTransactionsByDate_spec_witness :
    List.Sublist [xyzMartTxn, { xyzMartTxn with description := "xyz mart 2" }]
      (sortTransactionsByDate
        [xyzMartTxn, { xyzMartTxn with description := "xyz mart 2" }]) :=
  (sortTransactionsByDate_spec
      [xyzMartTxn, { xyzMartTxn with description := "xyz mart 2" }]).2.2
    xyzMartTxn { xyzMartTxn with description := "xyz mart 2" } rfl
    (List.Sublist.refl _)

/-- A commit never rewrites the candidate list, nor the summary's selection
counter: every branch of `importTransactions` only touches `step`,
`progress`, `error` and the summary's `duplicates` field. -/
theorem importTransactions_frame (st : ImportState) (env : ImportEnv) :
    (importTransactions st env).1.transactions = st.transactions ∧
    (importTransactions st env).1.summary.selected = st.summary.selected := by
  constructor <;>
  · unfold importTransactions
    dsimp only []
    repeat' split <;> try rfl

/-- C8: when the batch insert fails during commit (the all-or-nothing insert
of `expenses.js` rejecting the whole batch), the session moves to the failed
(`'error'`) step with the message reporting the imported/failed counts, the
result is a failure, and the candidate list — and with it every row's
`selected` flag and category edit — is exactly what it was before the
commit. -/
theorem importTransactions_insert_failure (st : ImportState) (env : ImportEnv)
    (hstep : st.step ≠ Step.importing)
    (hsel : (st.transactions.filter (fun t => t.isValid && t.selected)).isEmpty = false)
    (hauth : env.auth = true)
    (hfetch : env.fetchErr = false)
    (huniq : (checkDuplicatesCore env.existing
      ((st.transactions.filter (fun t => t.isValid && t.selected)).map
        toDBRecord)).2.isEmpty = false)
    (hfail : env.insertRemoteError = true) :
    (importTransactions st env).1.step = Step.error ∧
    (importTransactions st env).1.transactions = st.transactions ∧
    (importTransactions st env).1.error = some (countsMsg 0
      (checkDuplicatesCore env.existing
        ((st.transactions.filter (fun t => t.isValid && t.selected)).map
          toDBRecord)).2.length
      (checkDuplicatesCore env.existing
        ((st.transactions.filter (fun t => t.isValid && t.selected)).map
          toDBRecord)).2.length) ∧
    (importTransactions st env).2.1.success = false := by
  simp only [importTransactions, checkDuplicates, batchImportTransactions,
    hauth, hfetch, hfail, hsel, if_neg hstep, Bool.false_eq_true, if_false,
    not_true, ite_false, ite_true, Bool.not_eq_true]
  simp [huniq]

/-- C8 witness: a previewing session with one selected valid row, an empty
ledger and a rejected batch insert keeps its candidate list and lands in the
error step. -/
theorem importTransactions_insert_failure_witness :
    previewSession.step ≠ Step.importing ∧
    (importTransactions previewSession insertFailEnv).1.step = Step.error ∧
    (importTransactions previewSession insertFailEnv).1.transactions =
      previewSession.transactions ∧
    (importTransactions previewSession insertFailEnv).2.1.success = false := by
  have h := importTransactions_insert_failure previewSession insertFailEnv
    (by decide) (by decide) rfl rfl (by decide) rfl
  exact ⟨by decide, h.1, h.2.1, h.2.2.2⟩

/-- `calculateSummary` counts exactly the selected rows. -/
theorem calculateSummary_selected (ts : List Txn) :
    (calculateSummary ts).selected = (ts.filter (fun t => t.selected)).length := rfl

/-- Replacing one element by a version with the same `p`-value does not
change the filtered length. -/
theorem length_filter_set_eq (p : Txn → Bool) (l : List Txn) (i : Nat) (a : Txn)
    (hp : p a = p (l.getD i default)) :
    ((l.set i a).filter p).length = (l.filter p).length := by
  induction l generalizing i with
  | nil => rfl
  | cons h t ih =>
    match i with
    | 0 =>
      have : p a = p h := by simpa using hp
      cases hh : p h <;> simp [List.filter, List.set, hh, this]
    | j + 1 =>
      have hp' : p a = p (t.getD j default) := by simpa using hp
      cases hh : p h <;> simp [List.filter, List.set, hh, ih j hp']

/-- `processFile` preserves the selection invariant: the error branches leave
`transactions` and `summary` untouched, and the preview branch rebuilds both
consistently (each row's `selected` flag is initialised to its `isValid`
flag, and the summary is recomputed from the final list). -/
theorem processFile_invariant (st : ImportState) (f : Option JsFile) (ok : Bool)
    (c : String) (h : SessionInvariant st) :
    SessionInvariant (processFile st f ok c).1 := by
  unfold processFile
  dsimp only []
  repeat' split
  any_goals exact h
  refine ⟨rfl, ?_⟩
  intro t ht hsel
  rw [sortTransactionsByDate, List.mem_mergeSort] at ht
  obtain ⟨r, _, rfl⟩ := List.mem_map.mp ht
  exact hsel

/-- `toggleTransactionSelection` preserves the selection invariant: it only
flips the flag of a valid row and recomputes the summary. -/
theorem toggle_invariant (st : ImportState) (i : Int) (h : SessionInvariant st) :
    SessionInvariant (toggleTransactionSelection st i).1 := by
  unfold toggleTransactionSelection
  dsimp only []
  split
  · exact h
  · split
    · exact h
    · rename_i hrange hvalid
      refine ⟨rfl, ?_⟩
      intro t ht hsel
      rcases List.mem_or_eq_of_mem_set ht with hmem | rfl
      · exact h.2 t hmem hsel
      · simpa using not_not.mp hvalid

/-- `selectAllTransactions` preserves the selection invariant: invalid rows
are forced to unselected and the summary is recomputed. -/
theorem selectAll_invariant (st : ImportState) (b : Bool) (_h : SessionInvariant st) :
    SessionInvariant (selectAllTransactions st b) := by
  refine ⟨rfl, ?_⟩
  intro t ht hsel
  obtain ⟨r, _, rfl⟩ := List.mem_map.mp ht
  by_cases hv : r.isValid = true
  · simpa using hv
  · simp [hv] at hsel

/-- `updateTransactionCategory` preserves the selection invariant: it changes
only the `category` field, so the selected count and every row's
`selected`/`isValid` pair are untouched (the summary is not recomputed, and
does not need to be). -/
theorem setCategory_invariant (st : ImportState) (i : Int) (cat : String)
    (h : SessionInvariant st) :
    SessionInvariant (updateTransactionCategory st i cat).1 := by
  unfold updateTransactionCategory
  dsimp only []
  split
  · exact h
  · split
    · exact h
    · dsimp only
      constructor
      · rw [h.1]
        refine (length_filter_set_eq (fun t => t.selected) st.transactions i.toNat
          _ ?_).symm
        rfl
      · intro t ht hsel
        rcases List.mem_or_eq_of_mem_set ht with hmem | rfl
        · exact h.2 t hmem hsel
        · rename_i hrange _
          have hlt : i.toNat < st.transactions.length := by
            push_neg at hrange
            omega
          have hmem : st.transactions.getD i.toNat default ∈ st.transactions := by
            rw [List.getD_eq_getElem st.transactions default hlt]
            exact List.getElem_mem hlt
          exact h.2 (st.transactions.getD i.toNat default) hmem hsel

/-- `importTransactions` preserves the selection invariant, because it never
rewrites the candidate list or the selected counter. -/
theorem runImport_invariant (st : ImportState) (env : ImportEnv)
    (h : SessionInvariant st) :
    SessionInvariant (importTransactions st env).1 := by
  obtain ⟨hts, hsel⟩ := importTransactions_frame st env
  constructor
  · rw [hts, hsel]; exact h.1
  · rw [hts]; exact h.2

/-- Every single operation preserves the selection invariant. -/
theorem applyOp_invariant (st : ImportState) (op : ImportOp) (h : SessionInvariant st) :
    SessionInvariant (applyOp st op) := by
  cases op with
  | process f ok c => exact processFile_invariant st f ok c h
  | toggle i => exact toggle_invariant st i h
  | selectAll b => exact selectAll_invariant st b h
  | setCategory i cat => exact setCategory_invariant st i cat h
  | runImport env => exact runImport_invariant st env h
  | close => exact ⟨rfl, fun t ht _ => absurd ht (List.not_mem_nil t)⟩

/-- C7: in every session state reachable from the fresh state through the
orchestrator's operations (`processFile`, `toggleTransactionSelection`,
`selectAllTransactions`, `updateTransactionCategory`, `importTransactions`,
`closeImportDialog`), `summary.selected` equals the number of rows with
`selected = true`, and no row is selected while invalid. -/
theorem session_invariant_reachable (ops : List ImportOp) :
    SessionInvariant (runOps ops) := by
  have hgen : ∀ (ops' : List ImportOp) (st : ImportState), SessionInvariant st →
      SessionInvariant (List.foldl applyOp st ops') := by
    intro ops'
    induction ops' with
    | nil => exact fun st h => h
    | cons op t ih => exact fun st h => ih _ (applyOp_invariant st op h)
  exact hgen ops createInitialState ⟨rfl, fun t ht _ => absurd ht (List.not_mem_nil t)⟩

/-- C7 witness: the invariant at a concrete reachable state (a select-all
followed by a toggle on the empty fresh session). -/
theorem session_invariant_reachable_witness :
    SessionInvariant (runOps [ImportOp.selectAll true, ImportOp.toggle 0]) :=
  session_invariant_reachable [ImportOp.selectAll true, ImportOp.toggle 0]

end FinanceImport
